import Mathlib

/-
Verification development for the civmc-agribot farm-lifecycle bot
(src/main.py). The Python source is shallowly embedded below:

* timedelta values are modelled as `Int` numbers of seconds (the program
  only ever stores whole seconds on disk and compares/adds durations);
* aware UTC datetimes are modelled as `Int` timestamps (seconds);
* the per-farm dict is modelled by the structure `Farm`;
* the asyncio task dictionary `_scheduled_tasks` and the created tasks are
  modelled by the small operational scheduler model `Sched`/`SEv`;
* the persisted JSON document is modelled by `FarmsDoc` over `JVal`.

Line references in comments are to src/main.py.
-/

namespace Agribot

/-! ## String helpers (Python str.strip / str.lower / re.sub whitespace) -/

/-- Python `str.strip()` on a list of characters: drop leading and trailing
whitespace.  (Lean's `Char.isWhitespace` and Python's whitespace set agree on
the ASCII inputs this program handles.) -/
def stripChars (l : List Char) : List Char :=
  ((l.dropWhile Char.isWhitespace).reverse.dropWhile Char.isWhitespace).reverse

/-- Worker for `collapseChars`; the flag records whether the previous
character was whitespace (in which case further whitespace is swallowed). -/
def collapseAux : Bool → List Char → List Char
  | _, [] => []
  | prevWS, c :: rest =>
    if c.isWhitespace then
      if prevWS then collapseAux true rest else ' ' :: collapseAux true rest
    else
      c :: collapseAux false rest

/-- Replace every maximal run of whitespace by a single space, as
`re.sub(r"\s+", " ", s)` does (src/main.py:238). -/
def collapseChars (l : List Char) : List Char := collapseAux false l

/-- Python `name.strip().lower()`, the key under which a farm's stored name is
compared (src/main.py:239, 243, 509, 510). -/
def farmKey (s : String) : List Char :=
  (stripChars s.toList).map Char.toLower

/-- The cleaned search argument of `find_farms_by_name_partial`
(src/main.py:238): `re.sub(r"\s+", " ", name_raw.strip().lower())`. -/
def searchClean (s : String) : List Char :=
  collapseChars ((stripChars s.toList).map Char.toLower)

/-- Does `needle` occur at the head of `hay`? -/
def leadsWith : List Char → List Char → Bool
  | [], _ => true
  | _ :: _, [] => false
  | a :: as, b :: bs => a == b && leadsWith as bs

/-- Python's substring test `needle in hay` on character lists
(src/main.py:243). -/
def subChars (needle : List Char) : List Char → Bool
  | [] => needle.isEmpty
  | b :: bs => leadsWith needle (b :: bs) || subChars needle bs

/-! ## Data model -/

/-- Status string constants (src/main.py:55-57). `STATUS_FARMING` is the
source's realisation of the spec's `InProgress` state. -/
def STATUS_UNKNOWN : String := "Unknown"

def STATUS_FARMING : String := "Currently being farmed"

def STATUS_READY : String := "Ready to be farmed"

/-- One farm record, the in-memory per-entity dict after `load_farms`
normalisation: `runtime` and `regrow_time` are timedeltas (seconds),
`next_ready` an optional aware UTC datetime (timestamp in seconds). -/
structure Farm where
  name : String
  coords : String
  total_output : String
  runtime : Int
  regrow_time : Int
  next_ready : Option Int
  status : String
deriving DecidableEq, Repr

/-! ## Registry lookup (src/main.py:232-249) -/

/-- Embedding of `find_farms_by_name_partial` (src/main.py:232-244): exact
case-insensitive whitespace-normalised match first; if none, substring
("contains") match against all stored names; empty argument matches nothing. -/
def find_farms_by_name (name_raw : String) (fs : List Farm) : List Farm :=
  if name_raw = "" then []
  else
    let clean := searchClean name_raw
    let exact := fs.filter (fun f => farmKey f.name == clean)
    if exact.isEmpty then fs.filter (fun f => subChars clean (farmKey f.name))
    else exact

/-- Embedding of `get_farm_exact` (src/main.py:247-249):
`matches[0] if matches else None`. -/
def get_farm_exact (name_raw : String) (fs : List Farm) : Option Farm :=
  (find_farms_by_name name_raw fs).head?

/-- Outcome of resolving the entity-name phrase of a Kira feed line
(src/main.py:342-345): either a target farm, or the line is discarded with a
printed diagnostic and nothing is mutated. -/
structure ResolveOut where
  target : Option Farm
  discarded : Bool
  diagnostic : Bool
deriving DecidableEq, Repr

/-- Embedding of the resolution step of `process_kira_message`
(src/main.py:342-345): `farm = get_farm_exact(farm_name_part)`; when it is
`None` the function prints "Unknown farm in Kira message" and returns before
any record is touched. -/
def kira_resolution (phrase : String) (fs : List Farm) : ResolveOut :=
  match get_farm_exact phrase fs with
  | none => ⟨none, true, true⟩
  | some f => ⟨some f, false, false⟩

/-! ## removefarm lookup (src/main.py:505-533) -/

/-- Embedding of the lookup inside `removefarm` (src/main.py:509-510):
`next((f for f in farms if f["name"].strip().lower() == farm_name_str), None)`
with `farm_name_str = str(farm_name).strip().lower()`.  Note: exact key match
only, no substring fallback. -/
def removefarm_lookup (arg : String) (fs : List Farm) : Option Farm :=
  fs.find? (fun f => farmKey f.name == farmKey arg)

/-- Embedding of `removefarm` (src/main.py:505-533) at the registry level:
on a miss it reports not-found and leaves the list untouched; on a hit it
filters out every farm whose key equals the argument's key
(src/main.py:524). -/
def removefarm_apply (arg : String) (fs : List Farm) : Option Farm × List Farm :=
  match removefarm_lookup arg fs with
  | none => (none, fs)
  | some f => (some f, fs.filter (fun g => !(farmKey g.name == farmKey arg)))

/-! ## Demonstration records (first-run defaults, src/main.py:137-156, and
the spec's §8 scenario names) -/

def farm1 : Farm :=
  ⟨"Farm_1", "(123, 64, -456)", "50 ci wheat", 1800, 36, none, STATUS_UNKNOWN⟩

def surmadriFarm : Farm :=
  ⟨"Surmadri Wheat Farm", "(123, 64, -456)", "5 cs wheat", 900, 7200, none, STATUS_UNKNOWN⟩

def defaultFarms : List Farm := [farm1, surmadriFarm]

def wheatFarm : Farm :=
  ⟨"Wheat Farm", "(0, 64, 0)", "wheat", 1800, 7200, none, STATUS_UNKNOWN⟩

def cornFarm : Farm :=
  ⟨"Corn Farm", "(9, 64, 9)", "corn", 1800, 7200, none, STATUS_UNKNOWN⟩

def demoPair : List Farm := [wheatFarm, cornFarm]

/-! ## Kira event application (src/main.py:326-442) -/

/-- The two recognised status phrases of a Kira line: "being started" and
"has finished" (src/main.py:369, 421). -/
inductive EvKind where
  | kstarted
  | kfinished
deriving DecidableEq, Repr

/-- Result of applying one Kira event to a farm: the updated record and the
fire instants of the timers armed by the handler.  `failsafeFireAt` is the
instant at which the failsafe task's sleep of `2 * runtime` elapses
(src/main.py:384); `readyFireAt` is the instant the readiness notification
task wakes (src/main.py:205-211, armed via `schedule_task_for_farm`). -/
structure ApplyOut where
  farm : Farm
  failsafeFireAt : Option Int
  readyFireAt : Option Int
deriving DecidableEq, Repr

/-- Embedding of the two event branches of `process_kira_message`.
`created_at` is the Discord message's own timestamp (src/main.py:348-352)
and `now` the wall-clock instant at which the handler runs.

Started (src/main.py:369-405): status := FARMING, next_ready := None, the
existing task is cancelled, and a failsafe task is created whose sleep of
`2 * runtime` starts now — the event timestamp is not used.

Finished (src/main.py:421-427): next_ready := created_at + regrow_time
(the event's own timestamp, not `now`), status := FARMING, and
`schedule_task_for_farm` replaces the failsafe with the readiness timer that
fires at next_ready. -/
def processKiraEvent (farm : Farm) (k : EvKind) (created_at now : Int) : ApplyOut :=
  match k with
  | .kstarted =>
      ⟨{ farm with status := STATUS_FARMING, next_ready := none },
       some (now + 2 * farm.runtime), none⟩
  | .kfinished =>
      let nr := created_at + farm.regrow_time
      ⟨{ farm with status := STATUS_FARMING, next_ready := some nr },
       none, some nr⟩

/-! ## Failsafe body (src/main.py:382-405) -/

/-- Observable outcome of one run of the failsafe task's body after its
sleep elapses. -/
structure FailsafeOut where
  farm : Farm
  saved : Bool
  embedUpdated : Bool
  readyFireAt : Option Int
  autoNotifSent : Bool
deriving DecidableEq, Repr

/-- Embedding of `failsafe_task` after the sleep (src/main.py:385-402).

If `next_ready` is already set the body does nothing at all.  Otherwise it
sets `next_ready := now + regrow_time`, keeps status FARMING, saves,
updates the embed, and calls `schedule_task_for_farm` (src/main.py:394),
which cancels `_scheduled_tasks[name]` before arming the readiness task.
`selfInDict` says whether that dictionary entry is the running failsafe task
itself — which it is whenever the failsafe actually fires, because the entry
was set to this task at creation (src/main.py:405) and any path that
replaces it first sets `next_ready` or cancels the failsafe.  Cancelling the
running task makes asyncio deliver `CancelledError` at the task's next
await, which is exactly the `bot_channel.send` of the auto-recovered
message (src/main.py:398-400); the send is therefore aborted and swallowed
by the `except asyncio.CancelledError` handler, so no auto-recovered
notification goes out. -/
def failsafeBody (farm : Farm) (now : Int) (botChannelFound selfInDict : Bool) :
    FailsafeOut :=
  match farm.next_ready with
  | some _ => ⟨farm, false, false, none, false⟩
  | none =>
      let nr := now + farm.regrow_time
      let farm' := { farm with next_ready := some nr, status := STATUS_FARMING }
      ⟨farm', true, true, some nr, botChannelFound && !selfInDict⟩

/-! ## Readiness notification (src/main.py:167-185) -/

/-- Observable outcome of `notify_farm_ready_plain`. -/
structure NotifyOut where
  farm : Farm
  saved : Bool
  embedUpdated : Bool
  sent : Bool
deriving DecidableEq, Repr

/-- Embedding of `notify_farm_ready_plain` (src/main.py:167-185).  The
channel lookup comes first; on failure the function prints a diagnostic and
returns before touching the record.  On success: status := READY,
next_ready := None, save, update embed, send the ready ping. -/
def notify_farm_ready_plain (channelFound : Bool) (farm : Farm) : NotifyOut :=
  if channelFound then
    ⟨{ farm with status := STATUS_READY, next_ready := none }, true, true, true⟩
  else
    ⟨farm, false, false, false⟩

/-! ## Restart reload (src/main.py:679-694) -/

/-- Observable outcome of the per-farm scheduling loop in `on_ready`. -/
structure ReloadOut where
  farm : Farm
  saved : Bool
  readyFireAt : Option Int
  notified : Bool
deriving DecidableEq, Repr

/-- Embedding of the `on_ready` reload loop body (src/main.py:679-694) for a
record whose `next_ready` is already a datetime: if it is at or before `now`
the farm is switched to READY with `next_ready` cleared and saved (no
notification is produced anywhere on this path); otherwise
`schedule_task_for_farm` re-arms a readiness task that fires at
`next_ready`, leaving the record untouched. -/
def on_ready_reload (farm : Farm) (now : Int) : ReloadOut :=
  match farm.next_ready with
  | none => ⟨farm, false, none, false⟩
  | some nr =>
      if nr ≤ now then
        ⟨{ farm with status := STATUS_READY, next_ready := none }, true, none, false⟩
      else
        ⟨farm, false, some nr, false⟩

/-! ## Persist-before-notify traces (C8) -/

/-- One externally relevant action of a transition handler, in program
order.  `persist` carries the farm state written to disk by that
`save_farms` call; `embed` is the status-board edit; `send` a completed
channel message. -/
inductive Act where
  | persist (f : Farm)
  | embed
  | send (kind : String)
deriving DecidableEq, Repr

/-- The four lifecycle transitions, with the inputs that determine their
action sequence.  `chan` is whether the relevant channel lookup succeeds;
for the failsafe, `selfInDict` is as in `failsafeBody`. -/
inductive Tr where
  | tstarted (chan : Bool)
  | tfinished (t : Int) (chan : Bool)
  | tfailsafe (now : Int) (chan : Bool) (selfInDict : Bool)
  | treadyExpiry (chan : Bool)
deriving DecidableEq, Repr

/-- Post-transition farm record for each transition (identity where the
handler does not touch the record). -/
def trPost (tr : Tr) (farm : Farm) : Farm :=
  match tr with
  | .tstarted _ => { farm with status := STATUS_FARMING, next_ready := none }
  | .tfinished t _ =>
      { farm with status := STATUS_FARMING, next_ready := some (t + farm.regrow_time) }
  | .tfailsafe now _ _ =>
      match farm.next_ready with
      | some _ => farm
      | none => { farm with status := STATUS_FARMING, next_ready := some (now + farm.regrow_time) }
  | .treadyExpiry chan =>
      if chan then { farm with status := STATUS_READY, next_ready := none } else farm

/-- Action sequence of each transition handler, in program order.

Started (src/main.py:369-416): save, embed update, then (if the bot channel
resolves) the started embed message; the checkpoint save at the end of
`process_kira_message` (src/main.py:441-442) rewrites the same farm state.

Finished (src/main.py:421-442): save, embed update, finished embed message,
checkpoint save.

Failsafe (src/main.py:385-402): nothing when superseded; else save, embed
update, and the auto-recovered send only when the bot channel resolves and
the pending self-cancellation does not abort it (see `failsafeBody`).

Readiness expiry (src/main.py:167-185): nothing when the channel lookup
fails; else save, embed update, ready send. -/
def trActs (tr : Tr) (farm : Farm) : List Act :=
  match tr with
  | .tstarted chan =>
      [Act.persist (trPost tr farm), Act.embed]
        ++ (if chan then [Act.send "started"] else [])
        ++ [Act.persist (trPost tr farm)]
  | .tfinished _ chan =>
      [Act.persist (trPost tr farm), Act.embed]
        ++ (if chan then [Act.send "finished"] else [])
        ++ [Act.persist (trPost tr farm)]
  | .tfailsafe _ chan selfInDict =>
      match farm.next_ready with
      | some _ => []
      | none =>
          [Act.persist (trPost tr farm), Act.embed]
            ++ (if chan && !selfInDict then [Act.send "auto-recovered"] else [])
  | .treadyExpiry chan =>
      if chan then [Act.persist (trPost tr farm), Act.embed, Act.send "ready"] else []

/-- Is an action externally observable (a channel message or the status
board edit), as opposed to the disk write? -/
def observable : Act → Bool
  | .persist _ => false
  | .embed => true
  | .send _ => true

/-! ## Scheduler model (C1): the `_scheduled_tasks` dictionary and the
asyncio tasks it references (src/main.py:164, 216-226, 375-405, 516-520,
640, 679-694).

Every asyncio task ever created is kept in `tasks`; `armed` is true while
the task may still fire (it has neither completed nor been cancelled).
`dict` is `_scheduled_tasks`: at most one task handle per farm name.  The
operations mirror the source exactly: every path that creates a task first
cancels the task currently held for that name. -/

/-- One created asyncio task: its identity, the farm name it is keyed
under, and whether it is still pending (not done, not cancelled). -/
structure STask where
  tid : Nat
  tname : String
  armed : Bool
deriving DecidableEq, Repr

/-- Scheduler state: all tasks ever created, the `_scheduled_tasks`
dictionary, and a fresh-id counter. -/
structure Sched where
  tasks : List STask
  dict : String → Option Nat
  fresh : Nat

/-- The empty scheduler at process start. -/
def sched0 : Sched := ⟨[], fun _ => none, 0⟩

/-- Cancel the task with id `i` (it can no longer fire). -/
def cancelId (s : Sched) (i : Nat) : Sched :=
  { s with tasks := s.tasks.map (fun t => if t.tid = i then { t with armed := false } else t) }

/-- Cancel the task currently held in `_scheduled_tasks` for `n`, if any:
`old = _scheduled_tasks.get(name); if old and not old.done(): old.cancel()`
(src/main.py:221-223).  Cancelling a done task is a no-op, which `cancelId`
models since a done task already has `armed = false`. -/
def cancelCurrent (s : Sched) (n : String) : Sched :=
  match s.dict n with
  | none => s
  | some i => cancelId s i

/-- Remove the dictionary entry for `n` (`_scheduled_tasks.pop(name, None)`,
src/main.py:379, 520). -/
def popDict (s : Sched) (n : String) : Sched :=
  { s with dict := fun m => if m = n then none else s.dict m }

/-- Create a fresh pending task keyed under `n` and store its handle in the
dictionary (`asyncio.create_task(...)` + assignment, src/main.py:225-226,
405). -/
def armNew (s : Sched) (n : String) : Sched :=
  { tasks := s.tasks ++ [⟨s.fresh, n, true⟩],
    dict := fun m => if m = n then some s.fresh else s.dict m,
    fresh := s.fresh + 1 }

/-- Embedding of `schedule_task_for_farm` (src/main.py:216-226): cancel the
current task for the name, then create and store a readiness task only when
`next_ready` is set. -/
def schedule_task_for_farm (s : Sched) (n : String) (hasNextReady : Bool) : Sched :=
  let s1 := cancelCurrent s n
  if hasNextReady then armNew s1 n else s1

/-- The scheduler-relevant events of the claim: Started and Finished Kira
events, a failsafe expiry, a readiness-task completion, a manual edit
(which calls `schedule_task_for_farm` with whatever `next_ready` the record
has, src/main.py:640), and a manual removal. -/
inductive SEv where
  | started (n : String)
  | finished (n : String)
  | failsafeExpire (n : String)
  | readyExpire (n : String)
  | edit (n : String) (hasNextReady : Bool)
  | removed (n : String)

/-- One scheduler step per event, following the source paths:

* started (src/main.py:375-405): cancel the current task, pop the entry,
  create the failsafe task and store it;
* finished (src/main.py:427): `schedule_task_for_farm` with `next_ready`
  set;
* failsafe expiry (src/main.py:394): the body calls
  `schedule_task_for_farm`, cancelling the dictionary's task (the failsafe
  itself) and arming the readiness task;
* readiness-task completion: the dictionary's task finishes firing and is
  done from then on;
* edit (src/main.py:640): `schedule_task_for_farm`;
* removal (src/main.py:516-520): cancel the current task and pop the
  entry. -/
def step : Sched → SEv → Sched
  | s, .started n => armNew (popDict (cancelCurrent s n) n) n
  | s, .finished n => schedule_task_for_farm s n true
  | s, .failsafeExpire n => schedule_task_for_farm s n true
  | s, .readyExpire n => cancelCurrent s n
  | s, .edit n h => schedule_task_for_farm s n h
  | s, .removed n => popDict (cancelCurrent s n) n

/-- Run an interleaving of scheduler events from process start. -/
def runSched (evs : List SEv) : Sched := evs.foldl step sched0

/-- Number of armed (still pending) tasks keyed to the name `n`. -/
def armedFor (s : Sched) (n : String) : Nat :=
  (s.tasks.filter (fun t => t.tname == n && t.armed)).length

/-- Scheduler invariant: every armed task is the one the dictionary holds
for its name, ids are below the fresh counter, and ids are pairwise
distinct. -/
def SchedInv (s : Sched) : Prop :=
  (∀ t ∈ s.tasks, t.armed = true → s.dict t.tname = some t.tid)
    ∧ (∀ t ∈ s.tasks, t.tid < s.fresh)
    ∧ s.tasks.Pairwise (fun a b => a.tid ≠ b.tid)

/-! ## Durable store model (C9): `load_farms` / `save_farms`
(src/main.py:66-125).

JSON scalars and the in-memory temporal values are modelled by `JVal`.  The
exact serialization library is out of scope (spec §1), so a timestamp
string in the fixed `datetime.isoformat` format denoting instant `t` is
represented by the constructor `jtime t`; `jstr` covers all other strings,
which `datetime.fromisoformat` is modelled as failing to parse.  `jdt` and
`jdur` are the in-memory `datetime` and `timedelta` values that only exist
after `load_farms` conversion. -/

inductive JVal where
  | null
  | jint (n : Int)
  | jstr (s : String)
  | jtime (t : Int)
  | jdt (t : Int)
  | jdur (n : Int)
deriving DecidableEq, Repr

/-- Python truthiness of the modelled values, used by the guard
`if "next_ready" in farm and farm["next_ready"]:` (src/main.py:88). -/
def truthy : JVal → Bool
  | .null => false
  | .jint n => n != 0
  | .jstr s => s != ""
  | .jtime _ => true
  | .jdt _ => true
  | .jdur n => n != 0

/-- Modelled from the spec: `datetime.fromisoformat` (library code, spec §1
out of scope) succeeds exactly on strings in the fixed textual timestamp
format, represented by `jtime`; on any other value the `try` block falls
into `except` (src/main.py:89-92). -/
def fromiso : JVal → Option Int
  | .jtime t => some t
  | _ => none

/-- Conversion `load_farms` applies to one farm-object entry
(src/main.py:86-98).  Working entrywise over the object is faithful because
JSON objects have unique keys. -/
def loadEntry : String × JVal → String × JVal
  | (k, v) =>
    if k = "next_ready" then
      if truthy v then
        match fromiso v with
        | some t => (k, .jdt t)
        | none => (k, .null)
      else (k, v)
    else if k = "runtime" ∨ k = "regrow_time" then
      match v with
      | .jint n => (k, .jdur n)
      | _ => (k, v)
    else (k, v)

/-- Conversion `save_farms` applies to one farm-object entry
(src/main.py:115-122): in-memory datetimes back to the fixed textual
format, timedeltas back to integer seconds; everything else is copied. -/
def saveEntry : String × JVal → String × JVal
  | (k, v) =>
    if k = "next_ready" then
      match v with
      | .jdt t => (k, .jtime t)
      | _ => (k, v)
    else if k = "runtime" ∨ k = "regrow_time" then
      match v with
      | .jdur n => (k, .jint n)
      | _ => (k, v)
    else (k, v)

/-- Does the object carry a "status" key (src/main.py:99)? -/
def statusPresent (obj : List (String × JVal)) : Bool :=
  obj.any (fun kv => kv.1 == "status")

/-- Per-farm conversion of `load_farms` (src/main.py:86-100): convert the
temporal fields, then default a missing status to Unknown. -/
def loadFarmObj (obj : List (String × JVal)) : List (String × JVal) :=
  if statusPresent (obj.map loadEntry) then obj.map loadEntry
  else obj.map loadEntry ++ [("status", .jstr STATUS_UNKNOWN)]

/-- Per-farm conversion of `save_farms` (src/main.py:115-123), applied to
`farm.copy()`: every entry is copied, temporal values serialised. -/
def saveFarmObj (obj : List (String × JVal)) : List (String × JVal) :=
  obj.map saveEntry

/-- An on-disk snapshot document: either the legacy bare list
(src/main.py:81-82) or the envelope with checkpoint ids and the farm list
(src/main.py:110-114). -/
inductive FarmsDoc where
  | legacy (farms : List (List (String × JVal)))
  | env (last_message_id status_message_id : JVal)
        (farms : List (List (String × JVal)))
deriving DecidableEq, Repr

/-- The in-memory data dict produced by `load_farms`. -/
structure BotData where
  last_message_id : JVal
  status_message_id : JVal
  farms : List (List (String × JVal))
deriving DecidableEq, Repr

/-- Embedding of `load_farms` (src/main.py:66-103) on an already-parsed,
non-corrupt document: wrap a legacy bare list, convert each farm object. -/
def load_farms : FarmsDoc → BotData
  | .legacy fs => ⟨.null, .null, fs.map loadFarmObj⟩
  | .env l s fs => ⟨l, s, fs.map loadFarmObj⟩

/-- Embedding of `save_farms` (src/main.py:106-125): always writes the
envelope form, serialising each farm object. -/
def save_farms (d : BotData) : FarmsDoc :=
  .env d.last_message_id d.status_message_id (d.farms.map saveFarmObj)

/-- One farm-object entry free of legacy-format ambiguity: `next_ready` is
explicit null or a fixed-format timestamp string, the two durations are
integer seconds.  Entries under any other key are opaque to both `load` and
`save`. -/
def canonicalEntry : String × JVal → Bool
  | (k, v) =>
    if k = "next_ready" then
      match v with
      | .null => true
      | .jtime _ => true
      | _ => false
    else if k = "runtime" ∨ k = "regrow_time" then
      match v with
      | .jint _ => true
      | _ => false
    else true

/-- A canonical farm object: every entry canonical and the status field
present (the persisted layout of spec §6 always carries it; its absence is
a legacy format that `load_farms` repairs). -/
def canonicalObj (obj : List (String × JVal)) : Bool :=
  obj.all canonicalEntry && statusPresent obj

/-- A snapshot document with no legacy-format ambiguities: envelope present
and every farm object canonical. -/
def canonicalDoc : FarmsDoc → Bool
  | .legacy _ => false
  | .env _ _ fs => fs.all canonicalObj

/-! ## Further concrete records used as witnesses -/

/-- The wheat farm right after a Started event was applied. -/
def wheatStarted : Farm :=
  ⟨"Wheat Farm", "(0, 64, 0)", "wheat", 1800, 7200, none, STATUS_FARMING⟩

/-- A farm counting down to readiness (readiness timer conceptually armed
for instant 500). -/
def readyDueFarm : Farm :=
  ⟨"Surmadri Wheat Farm", "(123, 64, -456)", "5 cs wheat", 900, 7200, some 500, STATUS_FARMING⟩

/-- A farm whose `next_ready` is already set (a Finished arrived). -/
def finishedFarm : Farm :=
  ⟨"Wheat Farm", "(0, 64, 0)", "wheat", 1800, 7200, some 5, STATUS_FARMING⟩

/-- A canonical snapshot document (envelope, integer-second durations,
fixed-format or null timestamps, status present). -/
def demoDoc : FarmsDoc :=
  .env (.jint 42) (.jint 7)
    [[("name", .jstr "Farm_1"), ("coords", .jstr "(123, 64, -456)"),
      ("total_output", .jstr "50 ci wheat"), ("runtime", .jint 1800),
      ("regrow_time", .jint 36), ("next_ready", .null),
      ("status", .jstr "Unknown")],
     [("name", .jstr "Surmadri Wheat Farm"), ("coords", .jstr "(123, 64, -456)"),
      ("total_output", .jstr "5 cs wheat"), ("runtime", .jint 900),
      ("regrow_time", .jint 7200), ("next_ready", .jtime 1760000000),
      ("status", .jstr "Currently being farmed")]]

/-! # Theorems -/

/-! ## Durable store round trip (towards C9) -/

theorem loadEntry_fst (kv : String × JVal) : (loadEntry kv).1 = kv.1 := by
  rcases kv with ⟨k, v⟩
  simp only [loadEntry]
  split
  · split
    · split <;> rfl
    · rfl
  · split
    · cases v <;> rfl
    · rfl

theorem save_load_entry (kv : String × JVal) (h : canonicalEntry kv = true) :
    saveEntry (loadEntry kv) = kv := by
  rcases kv with ⟨k, v⟩
  by_cases hk : k = "next_ready"
  · subst hk
    cases v <;> simp [canonicalEntry] at h <;>
      simp [loadEntry, saveEntry, truthy, fromiso]
  · by_cases hk2 : k = "runtime" ∨ k = "regrow_time"
    · cases v <;> simp [canonicalEntry, hk, hk2] at h
      simp [loadEntry, saveEntry, hk, hk2]
    · simp [loadEntry, saveEntry, hk, hk2]

theorem save_load_obj (obj : List (String × JVal)) (h : canonicalObj obj = true) :
    saveFarmObj (loadFarmObj obj) = obj := by
  have hall : ∀ kv ∈ obj, canonicalEntry kv = true := by
    simp only [canonicalObj, Bool.and_eq_true, List.all_eq_true] at h
    exact h.1
  have hstat : statusPresent obj = true := by
    simp only [canonicalObj, Bool.and_eq_true] at h
    exact h.2
  have hkeys : statusPresent (obj.map loadEntry) = statusPresent obj := by
    simp [statusPresent, List.any_map, Function.comp_def, loadEntry_fst]
  unfold loadFarmObj saveFarmObj
  rw [hkeys, hstat]
  simp only [if_pos, List.map_map]
  calc obj.map (saveEntry ∘ loadEntry)
      = obj.map id := List.map_congr_left
        (fun kv hkv => save_load_entry kv (hall kv hkv))
    _ = obj := List.map_id obj

/-- C9: `save_farms` after `load_farms` is the identity on every snapshot
document free of legacy-format ambiguities (envelope present, durations as
integer seconds, timestamps in the fixed textual format, absent readyAt
written explicitly as null, status field present). -/
theorem save_load_roundtrip (d : FarmsDoc) (h : canonicalDoc d = true) :
    save_farms (load_farms d) = d := by
  cases d with
  | legacy fs => simp [canonicalDoc] at h
  | env l s fs =>
    have hall : ∀ obj ∈ fs, canonicalObj obj = true := by
      simpa [canonicalDoc, List.all_eq_true] using h
    simp only [load_farms, save_farms]
    rw [List.map_map]
    have : fs.map (saveFarmObj ∘ loadFarmObj) = fs := by
      calc fs.map (saveFarmObj ∘ loadFarmObj)
          = fs.map id := List.map_congr_left
            (fun obj hobj => save_load_obj obj (hall obj hobj))
        _ = fs := List.map_id fs
    rw [this]

/-- Witness for C9 at a concrete canonical two-farm snapshot. -/
theorem save_load_roundtrip_witness :
    canonicalDoc demoDoc = true ∧ save_farms (load_farms demoDoc) = demoDoc :=
  ⟨by decide, save_load_roundtrip demoDoc (by decide)⟩

/-! ## Scheduler invariant (towards C1) -/

theorem cancelId_inv (s : Sched) (i : Nat) (h : SchedInv s) : SchedInv (cancelId s i) := by
  obtain ⟨h1, h2, h3⟩ := h
  refine ⟨?_, ?_, ?_⟩
  · intro t' ht' ha
    rcases List.mem_map.1 ht' with ⟨t, ht, rfl⟩
    by_cases hi : t.tid = i
    · simp [hi] at ha
    · simp only [if_neg hi]
      exact h1 t ht (by simpa [hi] using ha)
  · intro t' ht'
    rcases List.mem_map.1 ht' with ⟨t, ht, rfl⟩
    by_cases hi : t.tid = i <;> simpa [hi] using h2 t ht
  · show List.Pairwise _ (s.tasks.map _)
    rw [List.pairwise_map]
    refine h3.imp_of_mem (fun {a b} ha hb hab => ?_)
    have ta : ∀ t : STask,
        ((if t.tid = i then { t with armed := false } else t) : STask).tid = t.tid := by
      intro t
      by_cases hti : t.tid = i <;> simp [hti]
    rw [ta a, ta b]
    exact hab

theorem cancelCurrent_inv (s : Sched) (n : String) (h : SchedInv s) :
    SchedInv (cancelCurrent s n) := by
  unfold cancelCurrent
  cases s.dict n with
  | none => exact h
  | some i => exact cancelId_inv s i h

theorem cancelCurrent_unarmed (s : Sched) (n : String) (h : SchedInv s) :
    ∀ t ∈ (cancelCurrent s n).tasks, t.tname = n → t.armed = false := by
  intro t ht hn
  unfold cancelCurrent at ht
  cases hd : s.dict n with
  | none =>
    rw [hd] at ht
    cases ha : t.armed with
    | false => rfl
    | true =>
      have := h.1 t ht ha
      rw [hn, hd] at this
      cases this
  | some i =>
    rw [hd] at ht
    rcases List.mem_map.1 ht with ⟨t0, ht0, rfl⟩
    by_cases hi : t0.tid = i
    · simp [hi]
    · simp only [if_neg hi] at hn ⊢
      cases ha : t0.armed with
      | false => rfl
      | true =>
        have := h.1 t0 ht0 ha
        rw [hn, hd] at this
        exact absurd (Option.some.inj this).symm hi

theorem popDict_inv (s : Sched) (n : String) (h : SchedInv s)
    (hn : ∀ t ∈ s.tasks, t.tname = n → t.armed = false) : SchedInv (popDict s n) := by
  obtain ⟨h1, h2, h3⟩ := h
  refine ⟨?_, h2, h3⟩
  intro t ht ha
  by_cases htn : t.tname = n
  · rw [hn t ht htn] at ha
    cases ha
  · simp only [popDict, if_neg htn]
    exact h1 t ht ha

theorem armNew_inv (s : Sched) (n : String) (h : SchedInv s)
    (hn : ∀ t ∈ s.tasks, t.tname = n → t.armed = false) : SchedInv (armNew s n) := by
  obtain ⟨h1, h2, h3⟩ := h
  refine ⟨?_, ?_, ?_⟩
  · intro t ht ha
    rcases List.mem_append.1 ht with htl | htr
    · by_cases htn : t.tname = n
      · rw [hn t htl htn] at ha
        cases ha
      · simp only [armNew, if_neg htn]
        exact h1 t htl ha
    · simp only [List.mem_singleton] at htr
      subst htr
      simp [armNew]
  · intro t ht
    rcases List.mem_append.1 ht with htl | htr
    · exact Nat.lt_succ_of_lt (h2 t htl)
    · simp only [List.mem_singleton] at htr
      subst htr
      exact Nat.lt_succ_self _
  · show List.Pairwise _ (s.tasks ++ [⟨s.fresh, n, true⟩])
    rw [List.pairwise_append]
    refine ⟨h3, List.pairwise_singleton _ _, ?_⟩
    intro a hal b hbr
    simp only [List.mem_singleton] at hbr
    subst hbr
    exact Nat.ne_of_lt (h2 a hal)

theorem popDict_tasks (s : Sched) (n : String) : (popDict s n).tasks = s.tasks := rfl

theorem sched_step_inv (s : Sched) (e : SEv) (h : SchedInv s) : SchedInv (step s e) := by
  cases e with
  | started n =>
    exact armNew_inv _ n
      (popDict_inv _ n (cancelCurrent_inv s n h) (cancelCurrent_unarmed s n h))
      (by rw [popDict_tasks]; exact cancelCurrent_unarmed s n h)
  | finished n =>
    exact armNew_inv _ n (cancelCurrent_inv s n h) (cancelCurrent_unarmed s n h)
  | failsafeExpire n =>
    exact armNew_inv _ n (cancelCurrent_inv s n h) (cancelCurrent_unarmed s n h)
  | readyExpire n => exact cancelCurrent_inv s n h
  | edit n hnr =>
    cases hnr with
    | true => exact armNew_inv _ n (cancelCurrent_inv s n h) (cancelCurrent_unarmed s n h)
    | false => exact cancelCurrent_inv s n h
  | removed n =>
    exact popDict_inv _ n (cancelCurrent_inv s n h) (cancelCurrent_unarmed s n h)

theorem runSched_inv_aux (evs : List SEv) :
    ∀ s : Sched, SchedInv s → SchedInv (evs.foldl step s) := by
  induction evs with
  | nil => intro s h; exact h
  | cons e evs ih =>
    intro s h
    exact ih (step s e) (sched_step_inv s e h)

theorem sched0_inv : SchedInv sched0 :=
  ⟨fun t ht => absurd ht (List.not_mem_nil t), fun t ht => absurd ht (List.not_mem_nil t),
   List.Pairwise.nil⟩

theorem runSched_inv (evs : List SEv) : SchedInv (runSched evs) :=
  runSched_inv_aux evs sched0 sched0_inv

theorem len_le_one_of_same_tid (l : List STask) (k : Nat)
    (hall : ∀ t ∈ l, t.tid = k)
    (hp : l.Pairwise (fun a b => a.tid ≠ b.tid)) : l.length ≤ 1 := by
  match l with
  | [] => simp
  | [a] => simp
  | a :: b :: rest =>
    exfalso
    have hab : a.tid ≠ b.tid := (List.pairwise_cons.1 hp).1 b (by simp)
    exact hab ((hall a (by simp)).trans (hall b (by simp)).symm)

theorem armedFor_le_one (s : Sched) (h : SchedInv s) (n : String) :
    armedFor s n ≤ 1 := by
  cases hd : s.dict n with
  | none =>
    have : s.tasks.filter (fun t => t.tname == n && t.armed) = [] := by
      rw [List.filter_eq_nil_iff]
      intro t ht hp
      simp only [Bool.and_eq_true, beq_iff_eq] at hp
      have := h.1 t ht hp.2
      rw [hp.1, hd] at this
      cases this
    simp [armedFor, this]
  | some k =>
    apply len_le_one_of_same_tid _ k
    · intro t ht
      rcases List.mem_filter.1 ht with ⟨htm, hp⟩
      simp only [Bool.and_eq_true, beq_iff_eq] at hp
      have := h.1 t htm hp.2
      rw [hp.1, hd] at this
      exact (Option.some.inj this).symm
    · exact h.2.2.filter _

theorem armedFor_eq_zero (s : Sched) (n : String)
    (hn : ∀ t ∈ s.tasks, t.tname = n → t.armed = false) : armedFor s n = 0 := by
  have : s.tasks.filter (fun t => t.tname == n && t.armed) = [] := by
    rw [List.filter_eq_nil_iff]
    intro t ht hp
    simp only [Bool.and_eq_true, beq_iff_eq] at hp
    rw [hn t ht hp.1] at hp
    cases hp.2
  simp [armedFor, this]

/-- C1: over every interleaving of Started events, Finished events, failsafe
expiries, readiness-timer completions, edits and removals, at most one armed
scheduler task exists per farm name at any instant, and a removal leaves no
armed task for the removed name. -/
theorem timers_at_most_one_per_name (evs : List SEv) (n : String) :
    armedFor (runSched evs) n ≤ 1
      ∧ armedFor (step (runSched evs) (SEv.removed n)) n = 0 := by
  have hinv := runSched_inv evs
  refine ⟨armedFor_le_one _ hinv n, ?_⟩
  show armedFor (popDict (cancelCurrent (runSched evs) n) n) n = 0
  apply armedFor_eq_zero
  rw [popDict_tasks]
  exact cancelCurrent_unarmed _ n hinv

/-! ## Event application (C2, C6, C4) -/

/-- C2: applying a Finished event with timestamp `t` sets `next_ready` to
exactly `t + regrow_time` — using the event's own timestamp, with the same
result for every wall-clock application instant — and leaves the status at
the in-progress value. -/
theorem finished_uses_event_timestamp (farm : Farm) (t now now' : Int) :
    processKiraEvent farm EvKind.kfinished t now
        = processKiraEvent farm EvKind.kfinished t now'
      ∧ (processKiraEvent farm EvKind.kfinished t now).farm.next_ready
        = some (t + farm.regrow_time)
      ∧ (processKiraEvent farm EvKind.kfinished t now).farm.status = STATUS_FARMING :=
  ⟨rfl, rfl, rfl⟩

/-- C6: a Started event arms the failsafe to fire `2 × runtime` after the
wall-clock moment of application, independent of the event's timestamp; and
a failsafe that expires while `next_ready` is already set performs no state
change, no persist and no notification. -/
theorem started_failsafe_timing_and_noop (farm : Farm) (t t' now : Int) :
    (processKiraEvent farm EvKind.kstarted t now).failsafeFireAt
        = some (now + 2 * farm.runtime)
      ∧ processKiraEvent farm EvKind.kstarted t now
        = processKiraEvent farm EvKind.kstarted t' now
      ∧ ∀ d : Int, farm.next_ready = some d → ∀ b1 b2 : Bool,
          failsafeBody farm now b1 b2 = ⟨farm, false, false, none, false⟩ := by
  refine ⟨rfl, rfl, ?_⟩
  intro d hd b1 b2
  simp [failsafeBody, hd]

/-- Witness for C6 at the farm whose `next_ready` is 5: the failsafe fire
instant is `100 + 2 × runtime` for any event timestamp, and the superseded
failsafe is a no-op. -/
theorem started_failsafe_timing_and_noop_witness :
    (processKiraEvent finishedFarm EvKind.kstarted 3 100).failsafeFireAt
        = some (100 + 2 * finishedFarm.runtime)
      ∧ failsafeBody finishedFarm 100 true true
        = ⟨finishedFarm, false, false, none, false⟩ := by
  have h := started_failsafe_timing_and_noop finishedFarm 3 7 100
  exact ⟨h.1, h.2.2 5 rfl true true⟩

/-- C4 evaluated at its failing input: Wheat Farm (runtime 1800 s, regrow
7200 s) Started at T0 = 0 with no Finished.  The failsafe's sleep elapses at
3600 = 0 + 2×1800; its body sets `next_ready = 10800`, keeps the farming
status, persists, and arms the readiness task for 10800 — but the
auto-recovered notification is not emitted, because `schedule_task_for_farm`
cancelled the running failsafe task itself and the pending cancellation
aborts the subsequent channel send. -/
theorem failsafe_auto_notification_dropped :
    (processKiraEvent wheatFarm EvKind.kstarted 0 0).failsafeFireAt = some 3600
      ∧ (processKiraEvent wheatFarm EvKind.kstarted 0 0).farm = wheatStarted
      ∧ failsafeBody wheatStarted 3600 true true
        = ⟨{ wheatStarted with next_ready := some 10800 }, true, true, some 10800, false⟩ :=
  ⟨by decide, by decide, by decide⟩

/-! ## Name resolution (C3) -/

/-- C3 counterexample: resolving the phrase "farm" against the registry
holding "Wheat Farm" and "Corn Farm" produces two substring matches, yet
the event is not discarded — the first candidate is guessed and becomes the
target. -/
theorem ambiguous_resolution_guesses_first :
    (find_farms_by_name "farm" demoPair).length = 2
      ∧ kira_resolution "farm" demoPair = ⟨some wheatFarm, false, false⟩ :=
  ⟨by decide, by decide⟩

/-- C3 amended: a feed line whose entity-name phrase resolves to zero
entities is discarded with a diagnostic and mutates nothing; when
resolution yields one or more candidates — including an ambiguous
multi-match — the first match in registry order is chosen and the event is
applied to it. -/
theorem resolution_zero_or_first (fs : List Farm) (phrase : String) :
    (find_farms_by_name phrase fs = [] → kira_resolution phrase fs = ⟨none, true, true⟩)
      ∧ ∀ g gs, find_farms_by_name phrase fs = g :: gs →
          kira_resolution phrase fs = ⟨some g, false, false⟩ := by
  constructor
  · intro h
    simp [kira_resolution, get_farm_exact, h]
  · intro g gs h
    simp [kira_resolution, get_farm_exact, h]

/-- Witness for the amended C3: an unmatched phrase is discarded, an
ambiguous one targets the first registry entry. -/
theorem resolution_zero_or_first_witness :
    kira_resolution "zzz" demoPair = ⟨none, true, true⟩
      ∧ kira_resolution "farm" demoPair = ⟨some wheatFarm, false, false⟩ :=
  ⟨(resolution_zero_or_first demoPair "zzz").1 (by decide),
   (resolution_zero_or_first demoPair "farm").2 wheatFarm [cornFarm] (by decide)⟩

/-! ## Readiness notification (C5) -/

/-- C5 counterexample: when the channel lookup fails at readiness expiry of
the farm due at 500, the handler returns before the transition — the status
is not set to Ready, `next_ready` stays set, and nothing is persisted. -/
theorem channel_missing_skips_transition :
    (notify_farm_ready_plain false readyDueFarm).farm.status ≠ STATUS_READY
      ∧ (notify_farm_ready_plain false readyDueFarm).farm.next_ready = some 500
      ∧ (notify_farm_ready_plain false readyDueFarm).saved = false := by
  refine ⟨by decide, by decide, by decide⟩

/-- C5 amended: when the chat-platform channel lookup fails at readiness
expiry, the whole operation is skipped — the record keeps its pre-expiry
status and readyAt, nothing is persisted and nothing is sent (the
transition is recovered only by a later restart reload); when the lookup
succeeds, the transition to Ready with readyAt cleared is persisted and the
board updated before the ready message goes out. -/
theorem notify_ready_channel_behaviour (farm : Farm) :
    notify_farm_ready_plain false farm = ⟨farm, false, false, false⟩
      ∧ notify_farm_ready_plain true farm
        = ⟨{ farm with status := STATUS_READY, next_ready := none }, true, true, true⟩ :=
  ⟨rfl, rfl⟩

/-! ## Restart reload (C7) -/

/-- C7: at restart, a persisted in-progress record with `next_ready` set
transitions directly to Ready with `next_ready` cleared and is persisted —
with no notification — when its instant has passed; when the instant is
still in the future, the record is left unchanged and a readiness timer is
re-armed for that instant. -/
theorem restart_reload_behaviour (farm : Farm) (nr now : Int)
    (_hst : farm.status = STATUS_FARMING) (hnr : farm.next_ready = some nr) :
    (nr < now → on_ready_reload farm now
        = ⟨{ farm with status := STATUS_READY, next_ready := none }, true, none, false⟩)
      ∧ (now < nr → on_ready_reload farm now = ⟨farm, false, some nr, false⟩) := by
  constructor
  · intro h
    simp [on_ready_reload, hnr, le_of_lt h]
  · intro h
    simp [on_ready_reload, hnr, not_le.2 h]

/-- Witness for C7: the farm due at 500 reloaded at 1000 goes Ready and is
saved without notifying; reloaded at 100 it is untouched and re-armed for
500. -/
theorem restart_reload_behaviour_witness :
    on_ready_reload readyDueFarm 1000
        = ⟨{ readyDueFarm with status := STATUS_READY, next_ready := none }, true, none, false⟩
      ∧ on_ready_reload readyDueFarm 100 = ⟨readyDueFarm, false, some 500, false⟩ :=
  ⟨(restart_reload_behaviour readyDueFarm 500 1000 rfl rfl).1 (by decide),
   (restart_reload_behaviour readyDueFarm 500 100 rfl rfl).2 (by decide)⟩

/-! ## Persist before notify (C8) -/

theorem persist_head_before (l : List Act) (p : Farm)
    (hl : l = [] ∨ l.head? = some (Act.persist p)) (j : Nat) (a : Act)
    (hj : l[j]? = some a) (ha : observable a = true) :
    ∃ i, i < j ∧ l[i]? = some (Act.persist p) := by
  rcases hl with rfl | hh
  · simp at hj
  · cases l with
    | nil => simp at hh
    | cons x rest =>
      have hx : x = Act.persist p := by simpa using hh
      subst hx
      cases j with
      | zero =>
        have hax : a = Act.persist p := by simpa using hj.symm
        rw [hax] at ha
        simp [observable] at ha
      | succ j' => exact ⟨0, Nat.succ_pos j', by simp⟩

/-- C8: for every lifecycle transition (Started, Finished, failsafe expiry,
readiness expiry) and every input, each externally observable action
(status-board edit or channel message) in the handler's action sequence is
preceded by a disk write of the post-transition record — no notification is
emitted while the snapshot still holds the pre-transition state. -/
theorem persist_before_notify (tr : Tr) (farm : Farm) (j : Nat) (a : Act)
    (hj : (trActs tr farm)[j]? = some a) (ha : observable a = true) :
    ∃ i, i < j ∧ (trActs tr farm)[i]? = some (Act.persist (trPost tr farm)) := by
  apply persist_head_before _ _ _ j a hj ha
  cases tr with
  | tstarted chan => exact Or.inr rfl
  | tfinished t chan => exact Or.inr rfl
  | tfailsafe now chan sid =>
    cases hnr : farm.next_ready with
    | none =>
      refine Or.inr ?_
      simp [trActs, trPost, hnr]
    | some d =>
      refine Or.inl ?_
      simp [trActs, hnr]
  | treadyExpiry chan =>
    cases chan with
    | false => exact Or.inl rfl
    | true => exact Or.inr rfl

/-- Witness for C8: in the readiness-expiry trace of the farm due at 500,
the ready message at position 2 is preceded by the persist of the
post-transition record at position 0. -/
theorem persist_before_notify_witness :
    ∃ i, i < 2 ∧ (trActs (Tr.treadyExpiry true) readyDueFarm)[i]?
        = some (Act.persist (trPost (Tr.treadyExpiry true) readyDueFarm)) :=
  persist_before_notify (Tr.treadyExpiry true) readyDueFarm 2 (Act.send "ready")
    (by decide) (by decide)

/-! ## removefarm resolves exactly (C10) -/

/-- C10: the remove operation resolves its argument only by exact match of
the stripped, lowercased argument against each stored name's stripped,
lowercased form — no substring fallback — so any argument with no exact
match is reported not-found and removes nothing, even when substring
resolution (used by the lookup, status and edit paths through
`get_farm_exact`) would resolve it to the first of its matches. -/
theorem removefarm_exact_only (fs : List Farm) (arg : String)
    (h : ∀ f ∈ fs, farmKey f.name ≠ farmKey arg) :
    removefarm_apply arg fs = (none, fs)
      ∧ ∀ g gs, find_farms_by_name arg fs = g :: gs → get_farm_exact arg fs = some g := by
  constructor
  · have hf : removefarm_lookup arg fs = none := by
      rw [removefarm_lookup, List.find?_eq_none]
      intro f hfm
      simp only [beq_iff_eq]
      exact h f hfm
    simp [removefarm_apply, hf]
  · intro g gs hg
    simp [get_farm_exact, hg]

/-- Witness for C10: "surmadri" exactly matches no stored name, so
removefarm reports not-found and removes nothing, while `get_farm_exact`
resolves the same argument to "Surmadri Wheat Farm" by substring match. -/
theorem removefarm_exact_only_witness :
    removefarm_apply "surmadri" defaultFarms = (none, defaultFarms)
      ∧ get_farm_exact "surmadri" defaultFarms = some surmadriFarm := by
  have h := removefarm_exact_only defaultFarms "surmadri" (by decide)
  exact ⟨h.1, h.2 surmadriFarm [] (by decide)⟩

end Agribot
